import Mathlib

/-!
Verification of the market-structure analysis engine of
`telegram-news-worker` (`src/index.js`, duplicated verbatim in
`src/unnamed/part_002`): the indicator functions `ema`, `rsi`, `atr`,
`swingLevels`, the scoring function `scorePriceAction` with its `clamp`
helper, the regime classifier `detectMarketState`, and the report
assembly `buildDailyTA`.

Modelling conventions:
* JavaScript numbers are modelled as exact rationals (`ℚ`).  Binary
  floating-point rounding is out of scope; every decimal literal in the
  source (`0.998`, `0.6`, ...) is read as the exact rational it denotes.
* Where a computation can produce a non-finite JavaScript value
  (`NaN`, or `undefined` entering arithmetic via an out-of-range array
  access), numbers are wrapped in `JsVal`, whose `nan` constructor
  stands for every non-finite result.  JavaScript yields `±Infinity`
  rather than `NaN` for division of a nonzero number by zero; the
  embedding collapses that case to `nan` as well — no claim
  distinguishes between kinds of non-finite values, and in the
  functions modelled here every division by zero happens with a
  non-finite numerator anyway.
* `null` array entries (the `fill(null)` padding of `rsi`/`atr`
  outputs) and holes left by writing past the end of an array are both
  modelled as `none` in `List (Option _)` outputs.
* Fallible glue (`fetchKlines`, Telegram delivery) is out of scope; the
  analysis core itself contains no `throw`.
-/

set_option maxHeartbeats 1600000

/-- JavaScript numeric value: a finite number (modelled as an exact
rational) or a non-finite value (`NaN`; also standing for the
`±Infinity` results that arise from dividing by zero, see the header
comment). -/
inductive JsVal where
  | num (q : ℚ)
  | nan
deriving DecidableEq, Repr

namespace JsVal

/-- JavaScript `+` on numbers: any non-finite operand poisons the result. -/
def jadd : JsVal → JsVal → JsVal
  | .num a, .num b => .num (a + b)
  | _, _ => .nan

/-- JavaScript `-` on numbers. -/
def jsub : JsVal → JsVal → JsVal
  | .num a, .num b => .num (a - b)
  | _, _ => .nan

/-- JavaScript `*` on numbers. -/
def jmul : JsVal → JsVal → JsVal
  | .num a, .num b => .num (a * b)
  | _, _ => .nan

/-- JavaScript unary `-`. -/
def jneg : JsVal → JsVal
  | .num a => .num (-a)
  | .nan => .nan

/-- JavaScript `/`: division by zero is collapsed to `nan` (the source
only ever divides by zero when the numerator is already non-finite). -/
def jdiv : JsVal → JsVal → JsVal
  | .num a, .num b => if b = 0 then .nan else .num (a / b)
  | _, _ => .nan

/-- JavaScript `>=`: comparisons against `NaN` are `false`. -/
def jge : JsVal → JsVal → Bool
  | .num a, .num b => decide (b ≤ a)
  | _, _ => false

/-- JavaScript `<=`. -/
def jle : JsVal → JsVal → Bool
  | .num a, .num b => decide (a ≤ b)
  | _, _ => false

/-- JavaScript `>`. -/
def jgt : JsVal → JsVal → Bool
  | .num a, .num b => decide (b < a)
  | _, _ => false

/-- JavaScript `<`. -/
def jlt : JsVal → JsVal → Bool
  | .num a, .num b => decide (a < b)
  | _, _ => false

/-- JavaScript `=== 0` (strict equality against the literal `0`):
`NaN === 0` is `false`. -/
def jeqz : JsVal → Bool
  | .num a => decide (a = 0)
  | .nan => false

theorem jsub_nan (x : JsVal) : jsub x .nan = .nan := by cases x <;> rfl

theorem jdiv_nan (x : JsVal) : jdiv x .nan = .nan := by cases x <;> rfl

theorem jadd_nan (x : JsVal) : jadd x .nan = .nan := by cases x <;> rfl

end JsVal

/-- Reading `values[i]` in JavaScript: an out-of-range access yields
`undefined`, which becomes `NaN` as soon as it enters arithmetic.  The
source only ever indexes with `i ≥ 1` and `i - 1`, so the natural-number
truncation of `i - 1` at `i = 0` is never exercised. -/
def jget (values : List ℚ) (i : ℕ) : JsVal :=
  match values[i]? with
  | some v => .num v
  | none => .nan

theorem jget_eq_num (values : List ℚ) (i : ℕ) (h : i < values.length) :
    jget values i = .num (values.get ⟨i, h⟩) := by
  simp [jget, List.getElem?_eq_getElem h]

theorem jget_eq_nan (values : List ℚ) (i : ℕ) (h : values.length ≤ i) :
    jget values i = .nan := by
  simp [jget, List.getElem?_eq_none h]

/-- One OHLCV bar as produced by `fetchKlines` (`src/index.js` lines
264-271).  The JavaScript field `open` is a Lean keyword and is rendered
`open_`. -/
structure Candle where
  time : ℤ
  open_ : ℚ
  high : ℚ
  low : ℚ
  close : ℚ
  volume : ℚ
deriving DecidableEq, Repr

instance : Inhabited Candle := ⟨⟨0, 0, 0, 0, 0, 0⟩⟩

/-- `Math.max(...l)` for the nonempty lists the source applies it to.
(JavaScript returns `-Infinity` on an empty spread; every caller in the
source passes a nonempty list, and the `0` returned here for `[]` is an
unreachable sentinel.) -/
def listMax : List ℚ → ℚ
  | [] => 0
  | x :: xs => xs.foldl max x

/-- `Math.min(...l)`, same conventions as `listMax`. -/
def listMin : List ℚ → ℚ
  | [] => 0
  | x :: xs => xs.foldl min x

/-- `l.at(-k)` for `k ≥ 1`: the `k`-th element from the end, or
`undefined` (`none`) when the list is shorter than `k`. -/
def atNeg (l : List α) (k : ℕ) : Option α :=
  if k ≤ l.length then l[l.length - k]? else none

/-- `out[i] = v` on a JavaScript array: in-range assignment replaces the
entry; writing past the end extends the array, leaving holes (`none`)
in between. -/
def setExtend (l : List (Option α)) (i : ℕ) (v : Option α) : List (Option α) :=
  if i < l.length then l.set i v
  else l ++ List.replicate (i - l.length) none ++ [v]

/-- Membership in `setExtend`: every entry is an old entry, the written
value, or a hole. -/
theorem mem_setExtend {l : List (Option α)} {i : ℕ} {v a : Option α}
    (h : a ∈ setExtend l i v) : a ∈ l ∨ a = v ∨ a = none := by
  unfold setExtend at h
  split at h
  · rcases List.mem_or_eq_of_mem_set h with h' | h'
    · exact Or.inl h'
    · exact Or.inr (Or.inl h')
  · rcases List.mem_append.1 h with h' | h'
    · rcases List.mem_append.1 h' with h'' | h''
      · exact Or.inl h''
      · exact Or.inr (Or.inr (List.eq_of_mem_replicate h''))
    · rcases List.mem_singleton.1 h' with rfl
      exact Or.inr (Or.inl rfl)

/-- The tail recurrence of `ema`: `prev = values[i]*k + prev*(1-k)`,
pushing each new value (`src/index.js` lines 278-281). -/
def emaFrom (k : ℚ) (prev : ℚ) : List ℚ → List ℚ
  | [] => []
  | x :: xs =>
    let nxt := x * k + prev * (1 - k)
    nxt :: emaFrom k nxt xs

/-- `ema(values, period)` (`src/index.js` lines 274-283): seeded with
`values[0]`, smoothing constant `k = 2/(period+1)`, output the same
length as the input.  (On an empty input the JavaScript function would
return the junk array `[undefined]`; no caller passes an empty series
and the embedding returns `[]` there.) -/
def ema (values : List ℚ) (period : ℕ) : List ℚ :=
  match values with
  | [] => []
  | v :: vs => v :: emaFrom (2 / ((period : ℚ) + 1)) v vs

open JsVal

/-- State threaded through the Wilder loop of `rsi`: the smoothed
averages and the output array. -/
structure RsiState where
  avgGain : JsVal
  avgLoss : JsVal
  out : List (Option JsVal)
deriving Repr, DecidableEq

/-- One iteration of the seeding loop of `rsi` (`src/index.js` lines
287-291): `diff = values[i] - values[i-1]`; `diff >= 0` accumulates into
gains, otherwise `losses -= diff`. -/
def rsiInitStep (values : List ℚ) (gl : JsVal × JsVal) (i : ℕ) : JsVal × JsVal :=
  let diff := jsub (jget values i) (jget values (i - 1))
  if jge diff (.num 0) then (jadd gl.1 diff, gl.2) else (gl.1, jsub gl.2 diff)

/-- The RSI formula at one index (`src/index.js` lines 296 and 304):
`100` when `avgLoss === 0`, else `100 - 100/(1 + avgGain/avgLoss)`. -/
def rsiVal (g l : JsVal) : JsVal :=
  if jeqz l then .num 100
  else jsub (.num 100) (jdiv (.num 100) (jadd (.num 1) (jdiv g l)))

/-- One iteration of the Wilder smoothing loop of `rsi`
(`src/index.js` lines 298-305). -/
def rsiLoopStep (values : List ℚ) (period : ℕ) (st : RsiState) (i : ℕ) : RsiState :=
  let diff := jsub (jget values i) (jget values (i - 1))
  let gain := if jgt diff (.num 0) then diff else .num 0
  let loss := if jlt diff (.num 0) then jneg diff else .num 0
  let ag := jdiv (jadd (jmul st.avgGain (.num ((period : ℚ) - 1))) gain) (.num (period : ℚ))
  let al := jdiv (jadd (jmul st.avgLoss (.num ((period : ℚ) - 1))) loss) (.num (period : ℚ))
  { avgGain := ag, avgLoss := al, out := setExtend st.out i (some (rsiVal ag al)) }

/-- The `gains`/`losses` pair after the seeding loop of `rsi`
(`src/index.js` lines 286-291): `for (i = 1; i <= period; i++)`. -/
def rsiInitGL (values : List ℚ) (period : ℕ) : JsVal × JsVal :=
  (List.range' 1 period).foldl (rsiInitStep values) (.num 0, .num 0)

/-- The state of `rsi` just before its Wilder loop (`src/index.js`
lines 292-296): `avgGain = gains/period`, `avgLoss = losses/period`,
and the output array `new Array(values.length).fill(null)` with
`out[period]` written (extending the array when the input is shorter
than `period+1`, exactly as the JavaScript assignment does). -/
def rsiSeedState (values : List ℚ) (period : ℕ) : RsiState :=
  let ag := jdiv (rsiInitGL values period).1 (.num (period : ℚ))
  let al := jdiv (rsiInitGL values period).2 (.num (period : ℚ))
  { avgGain := ag
    avgLoss := al
    out := setExtend (List.replicate values.length (none : Option JsVal)) period
      (some (rsiVal ag al)) }

/-- `rsi(values, period)` (`src/index.js` lines 285-307) with the full
final state exposed: the Wilder loop runs over
`i = period+1 .. values.length-1`. -/
def rsiRun (values : List ℚ) (period : ℕ) : RsiState :=
  (List.range' (period + 1) (values.length - (period + 1))).foldl
    (rsiLoopStep values period) (rsiSeedState values period)

/-- The output array of `rsi(values, period)`: `null` before index
`period` (and in any holes), the RSI value at each computed index. -/
def rsi (values : List ℚ) (period : ℕ) : List (Option JsVal) :=
  (rsiRun values period).out

/-- The true-range list of `atr` (`src/index.js` lines 310-316):
`max(high-low, |high-prevClose|, |low-prevClose|)` for each bar from
index 1 onward.  All indices are in range by construction, so this is
pure rational arithmetic. -/
def trueRange (candles : List Candle) : List ℚ :=
  (List.range' 1 (candles.length - 1)).map (fun i =>
    let c := candles.getD i default
    let pc := candles.getD (i - 1) default
    max (c.high - c.low) (max |c.high - pc.close| |c.low - pc.close|))

/-- One iteration of the Wilder loop of `atr` (`src/index.js` lines
320-324): `prev = (prev*(period-1) + tr[i-1]) / period`, written to
`out[i]`.  Output entries before index `period` are `null`. -/
def atrStep (tr : List ℚ) (period : ℕ) (st : ℚ × List (Option ℚ)) (i : ℕ) :
    ℚ × List (Option ℚ) :=
  let nxt := (st.1 * ((period : ℚ) - 1) + tr.getD (i - 1) 0) / (period : ℚ)
  (nxt, setExtend st.2 i (some nxt))

/-- The seed of `atr` at index `period` (`src/index.js` line 317): the
mean of the first `period` true ranges. -/
def atrSeed (candles : List Candle) (period : ℕ) : ℚ :=
  ((trueRange candles).take period).sum / (period : ℚ)

/-- The output array of `atr(candles, period)`. -/
def atr (candles : List Candle) (period : ℕ) : List (Option ℚ) :=
  ((List.range' (period + 1) (candles.length - (period + 1))).foldl
    (atrStep (trueRange candles) period)
    (atrSeed candles period,
      setExtend (List.replicate candles.length (none : Option ℚ)) period
        (some (atrSeed candles period)))).2

/-- The two-tier support/resistance bands returned by `swingLevels`. -/
structure SRBands where
  resist : ℚ × ℚ
  support : ℚ × ℚ
deriving DecidableEq, Repr

/-- `swingLevels(candles, lookback)` (`src/index.js` lines 328-346):
over the last `lookback` candles (`slice(-lookback)`; `slice(-0)` is the
whole array), `hi` = max high, `lo` = min low; resistance =
`[ (hi+lastClose)/2, hi ]` sorted ascending, support =
`[ (lo+lastClose)/2, lo ]` sorted descending.  The two-element ascending
sort is rendered as `(min, max)` and the descending one as
`(max, min)`. -/
def swingLevels (candles : List Candle) (lookback : ℕ) : SRBands :=
  let s := if lookback = 0 then candles else candles.drop (candles.length - lookback)
  let hi := listMax (s.map (·.high))
  let lo := listMin (s.map (·.low))
  let lastClose := ((atNeg candles 1).getD default).close
  let r1 := hi
  let r2 := (hi + lastClose) / 2
  let s1 := lo
  let s2 := (lo + lastClose) / 2
  { resist := (min r2 r1, max r2 r1), support := (max s2 s1, min s2 s1) }

/-- `clamp(x, a, b) = Math.max(a, Math.min(b, x))` (`src/index.js`
lines 348-350). -/
def clamp (x a b : ℚ) : ℚ := max a (min b x)

/-- Truthiness of the `atr14` argument (a number or `null`): `null`,
`undefined` and `0` are falsy. -/
def truthyQ : Option ℚ → Bool
  | some a => decide (a ≠ 0)
  | none => false

/-- The running sum built by `scorePriceAction` before the final clamp
(`src/index.js` lines 352-367): baseline 5; plus or minus 2 on close vs
EMA50; plus 1.5, minus 1.5 or 0 on RSI (a `NaN` RSI fails both
comparisons and scores 0); minus 1, plus 0.5 or 0 on the volatility
ratio `volPct = atr14/close*100` (`0`
when `atr14` is falsy); `+1` when `h4Trend === "up"`, `-1` when
`=== "down"`. -/
def scoreRaw (close ema50 : ℚ) (rsi14 : JsVal) (atr14 : Option ℚ) (h4Trend : String) : ℚ :=
  let s1 : ℚ := 5
  let s2 := if close > ema50 then s1 + 2 else s1 - 2
  let s3 := if jge rsi14 (.num 60) then s2 + 1.5
    else if jle rsi14 (.num 40) then s2 - 1.5 else s2
  let volPct := if truthyQ atr14 then atr14.getD 0 / close * 100 else 0
  let s4 := if volPct ≥ 6 then s3 - 1 else if volPct ≤ 3 then s3 + 0.5 else s3
  let s5 := if h4Trend = "up" then s4 + 1 else s4
  if h4Trend = "down" then s5 - 1 else s5

/-- `scorePriceAction({close, ema50, rsi14, atr14, h4Trend})`
(`src/index.js` lines 352-369): the raw point sum clamped to
`[0, 10]`. -/
def scorePriceAction (close ema50 : ℚ) (rsi14 : JsVal) (atr14 : Option ℚ)
    (h4Trend : String) : ℚ :=
  clamp (scoreRaw close ema50 rsi14 atr14 h4Trend) 0 10

/-- The five regimes of `detectMarketState`.  The source encodes them as
the display strings `"BREAKOUT"`, `"BREAKDOWN"`, `"TÍCH LŨY"`
(accumulation), `"PHÂN PHỐI"` (distribution), `"TRUNG TÍNH"` (neutral);
the constructor names follow that correspondence. -/
inductive MarketState where
  | BREAKOUT
  | BREAKDOWN
  | ACCUMULATION
  | DISTRIBUTION
  | NEUTRAL
deriving DecidableEq, Repr

/-- `d1Candles[d1Candles.length - 1]`; the default is never reached for
the nonempty series all claims range over (JavaScript would fail with a
`TypeError` on an empty series). -/
def lastCandle (d1 : List Candle) : Candle :=
  (atNeg d1 1).getD default

/-- `maxHigh` over the trailing 20 bars (`src/index.js` lines 373-378). -/
def maxHigh (d1 : List Candle) : ℚ :=
  listMax ((d1.drop (d1.length - 20)).map (·.high))

/-- `minLow` over the trailing 20 bars (`src/index.js` lines 373-379). -/
def minLow (d1 : List Candle) : ℚ :=
  listMin ((d1.drop (d1.length - 20)).map (·.low))

/-- `rangePct = (maxHigh - minLow) / last.close * 100` (`src/index.js`
lines 381-382). -/
def rangePct (d1 : List Candle) : ℚ :=
  (maxHigh d1 - minLow d1) / (lastCandle d1).close * 100

/-- `atrPct = atrD ? atrD / last.close * 100 : 0` (`src/index.js`
line 383). -/
def atrPct (d1 : List Candle) (atrD : Option ℚ) : ℚ :=
  if truthyQ atrD then atrD.getD 0 / (lastCandle d1).close * 100 else 0

/-- `slopePct` (`src/index.js` lines 385-388): percent change between
the current EMA20 of the closes and its value 5 bars earlier
(`at(-6)`); `0` when that earlier value is `undefined` or `0` (falsy). -/
def slopePct (d1 : List Candle) : ℚ :=
  let s := ema (d1.map (·.close)) 20
  let now := (atNeg s 1).getD 0
  match atNeg s 6 with
  | none => 0
  | some p => if p = 0 then 0 else (now - p) / p * 100

/-- `bodyPct = |close - open| / close * 100` of the last candle
(`src/index.js` lines 390-391). -/
def bodyPct (d1 : List Candle) : ℚ :=
  |(lastCandle d1).close - (lastCandle d1).open_| / (lastCandle d1).close * 100

/-- `detectMarketState(d1Candles, ema50D, atrD)` (`src/index.js` lines
371-417): the transition rules in source order — BREAKOUT, BREAKDOWN,
ACCUMULATION (`TÍCH LŨY`), DISTRIBUTION (`PHÂN PHỐI`), NEUTRAL
(`TRUNG TÍNH`) — each with its fixed rationale string, first match
wins. -/
def detectMarketState (d1 : List Candle) (ema50D : ℚ) (atrD : Option ℚ) :
    MarketState × String :=
  if (lastCandle d1).close ≥ maxHigh d1 * 0.998 ∧ bodyPct d1 ≥ 0.6 then
    (.BREAKOUT, "Giá đóng cửa tiệm cận/vượt đỉnh 20 phiên, thân nến rõ")
  else if (lastCandle d1).close ≤ minLow d1 * 1.002 ∧ bodyPct d1 ≥ 0.6 then
    (.BREAKDOWN, "Giá đóng cửa tiệm cận/thủng đáy 20 phiên, thân nến rõ")
  else if (rangePct d1 ≤ 6.0 ∧ |slopePct d1| ≤ 0.35)
      ∨ (rangePct d1 ≤ 6.0 ∧ atrPct d1 atrD ≤ 3.5) then
    (.ACCUMULATION, "Biên độ hẹp, EMA phẳng/biến động thấp → ưu tiên chờ phá vỡ")
  else if (lastCandle d1).close ≥ ema50D ∧ slopePct d1 < 0.1 ∧ atrPct d1 atrD ≥ 4.0 then
    (.DISTRIBUTION, "Động lượng yếu dần, biến động tăng → dễ nhiễu/giật 2 chiều")
  else
    (.NEUTRAL, "Chưa có mẫu hình rõ ràng, ưu tiên phản ứng tại vùng")

/-- The last entry of an `rsi` output array as consumed by
`buildDailyTA` (`rsi(dCloses, 14).at(-1)`).  For every input the last
entry of `rsi` is a written value (index `period` is always assigned),
so the `null`/`undefined` fallbacks collapse to `nan` here without loss. -/
def lastJ (l : List (Option JsVal)) : JsVal :=
  match l.getLast? with
  | some (some v) => v
  | _ => .nan

/-- The report assembled by `buildDailyTA` (`src/index.js` lines
419-497).  The source renders these values into a message string via
`fmt`/`toFixed`; the rendering is pure formatting (spec §4.4 treats it
as an external concern), so the embedding records the interpolated
fields themselves. -/
structure Report where
  symbol : String
  asOf : String
  trendD : String
  h4Trend : String
  momentum : String
  paScore : ℚ
  state : MarketState × String
  resist : ℚ × ℚ
  support : ℚ × ℚ
  dClose : ℚ
  ema20D : ℚ
  ema50D : ℚ
  rsiD : JsVal
  atrD : Option ℚ
  h4Close : ℚ
  ema50H4 : ℚ
deriving DecidableEq, Repr

/-- `buildDailyTA({symbol, d1, h4})` (`src/index.js` lines 419-497).
The wall-clock date `new Date().toLocaleDateString("vi-VN")` is the one
impure input of the function and is passed in as `dateStr`; everything
else is computed from the candle series exactly as in the source:
EMA20/EMA50/RSI14/ATR14 of the daily series, EMA50 and trend of the
4-hour series, `swingLevels(d1, 60)`, `scorePriceAction`, and
`detectMarketState`. -/
def buildDailyTA (symbol dateStr : String) (d1 h4 : List Candle) : Report :=
  let dClose := (lastCandle d1).close
  let dCloses := d1.map (·.close)
  let ema20D := (atNeg (ema dCloses 20) 1).getD 0
  let ema50D := (atNeg (ema dCloses 50) 1).getD 0
  let rsiD := lastJ (rsi dCloses 14)
  let atrD := (atNeg (atr d1 14) 1).getD none
  let h4Closes := h4.map (·.close)
  let ema50H4 := (atNeg (ema h4Closes 50) 1).getD 0
  let h4Close := (lastCandle h4).close
  let h4Trend := if h4Close > ema50H4 then "up"
    else if h4Close < ema50H4 then "down" else "side"
  let trendD := if dClose > ema50D then "Uptrend"
    else if dClose < ema50D then "Downtrend" else "Sideway"
  let momentum := if jge rsiD (.num 60) then "Động lượng tăng"
    else if jle rsiD (.num 40) then "Động lượng giảm" else "Trung tính"
  let bands := swingLevels d1 60
  let paScore := scorePriceAction dClose ema50D rsiD atrD h4Trend
  let ms := detectMarketState d1 ema50D atrD
  { symbol := symbol
    asOf := dateStr
    trendD := trendD
    h4Trend := h4Trend
    momentum := momentum
    paScore := paScore
    state := ms
    resist := bands.resist
    support := bands.support
    dClose := dClose
    ema20D := ema20D
    ema50D := ema50D
    rsiD := rsiD
    atrD := atrD
    h4Close := h4Close
    ema50H4 := ema50H4 }

/-- Reference point system of spec §4.2, written from the spec's words
(to be compared against `scorePriceAction`, which is translated from the
source): start at 5; add 2 if close > ema50 else subtract 2; add 1.5 if
rsi14 ≥ 60, subtract 1.5 if rsi14 ≤ 40, else 0; with
`volPct = atr14/close*100` (0 if atr14 falsy), subtract 1 if volPct ≥ 6,
add 0.5 if volPct ≤ 3, else 0; add 1 if h4Trend is "up", subtract 1 if
"down"; clamp the sum to [0, 10]. -/
def scoreSpec (close ema50 : ℚ) (rsi14 : JsVal) (atr14 : Option ℚ) (h4Trend : String) : ℚ :=
  let volPct := if truthyQ atr14 then atr14.getD 0 / close * 100 else 0
  clamp (5
    + (if close > ema50 then 2 else -2)
    + (if jge rsi14 (.num 60) then 1.5 else if jle rsi14 (.num 40) then -1.5 else 0)
    + (if volPct ≥ 6 then -1 else if volPct ≤ 3 then 0.5 else 0)
    + (if h4Trend = "up" then 1 else if h4Trend = "down" then -1 else 0)) 0 10

/-! ## Helper lemmas -/

theorem emaFrom_const (k c : ℚ) (vs : List ℚ) (h : ∀ x ∈ vs, x = c) :
    emaFrom k c vs = vs := by
  induction vs with
  | nil => rfl
  | cons x xs ih =>
    have hx : x = c := h x (List.mem_cons_self x xs)
    subst hx
    have hc : x * k + x * (1 - k) = x := by ring
    simp only [emaFrom, hc]
    exact congrArg (x :: ·) (ih fun y hy => h y (List.mem_cons_of_mem x hy))

theorem clamp_nonneg (x : ℚ) : 0 ≤ clamp x 0 10 := le_max_left 0 _

theorem clamp_le_ten (x : ℚ) : clamp x 0 10 ≤ 10 :=
  max_le (by norm_num) (min_le_left 10 x)

/-! ## C5: EMA of a constant series -/

/-- C5: for every constant series (every element equal to some value
`c`) and every period, `ema(values, period)` returns a series of the
same length in which every element equals `c`: the seed is
`values[0] = c` and the recurrence `c*k + c*(1-k) = c` preserves the
constant at every step. -/
theorem ema_const (values : List ℚ) (c : ℚ) (period : ℕ)
    (h : ∀ x ∈ values, x = c) : ema values period = values := by
  cases values with
  | nil => rfl
  | cons v vs =>
    have hv : v = c := h v (List.mem_cons_self v vs)
    simp only [ema]
    rw [hv, emaFrom_const _ c vs fun y hy => h y (List.mem_cons_of_mem v hy)]

/-- Witness for C5 at the concrete constant series `[5, 5, 5]` with
period `20`. -/
theorem ema_const_witness :
    (∀ x ∈ ([5, 5, 5] : List ℚ), x = 5) ∧ ema [5, 5, 5] 20 = [5, 5, 5] :=
  ⟨by decide, ema_const [5, 5, 5] 5 20 (by decide)⟩

/-! ## C7: swingLevels band ordering -/

/-- C7: for every candle series and every lookback, the bands returned
by `swingLevels` satisfy `resist[0] ≤ resist[1]` (ascending, nearer band
first) and `support[0] ≥ support[1]` (descending, nearer band first),
for any input values including unordered or degenerate candles. -/
theorem swingLevels_sorted (candles : List Candle) (lookback : ℕ) :
    (swingLevels candles lookback).resist.1 ≤ (swingLevels candles lookback).resist.2
    ∧ (swingLevels candles lookback).support.1 ≥ (swingLevels candles lookback).support.2 := by
  simp only [swingLevels]
  exact ⟨min_le_max, min_le_max⟩

/-! ## C1: BREAKOUT is checked first and wins every tie -/

/-- C1: for every daily candle series whose last candle satisfies the
BREAKOUT conditions (`last.close ≥ maxHigh*0.998` over the trailing 20
bars and `bodyPct ≥ 0.6`), `detectMarketState` returns the BREAKOUT
state — even when the same series also satisfies the ACCUMULATION
conditions — because the transition rules are evaluated in the fixed
source order BREAKOUT, BREAKDOWN, ACCUMULATION, DISTRIBUTION, NEUTRAL
and the first match wins. -/
theorem detectMarketState_breakout_first (d1 : List Candle) (ema50D : ℚ) (atrD : Option ℚ)
    (h1 : (lastCandle d1).close ≥ maxHigh d1 * 0.998) (h2 : bodyPct d1 ≥ 0.6) :
    detectMarketState d1 ema50D atrD =
      (.BREAKOUT, "Giá đóng cửa tiệm cận/vượt đỉnh 20 phiên, thân nến rõ") := by
  unfold detectMarketState
  rw [if_pos ⟨h1, h2⟩]

/-- Witness for C1: a concrete series that satisfies the BREAKOUT
conditions and simultaneously the ACCUMULATION conditions
(`rangePct ≤ 6` with flat EMA20 slope and, for `atrD = none`, low
`atrPct`), on which the classifier nevertheless answers BREAKOUT. -/
theorem detectMarketState_breakout_first_witness :
    ((lastCandle [⟨0, 99, 100, 99, 100, 5⟩]).close ≥ maxHigh [⟨0, 99, 100, 99, 100, 5⟩] * 0.998
      ∧ bodyPct [⟨0, 99, 100, 99, 100, 5⟩] ≥ 0.6)
    ∧ (rangePct [⟨0, 99, 100, 99, 100, 5⟩] ≤ 6.0
      ∧ |slopePct [⟨0, 99, 100, 99, 100, 5⟩]| ≤ 0.35
      ∧ atrPct [⟨0, 99, 100, 99, 100, 5⟩] none ≤ 3.5)
    ∧ detectMarketState [⟨0, 99, 100, 99, 100, 5⟩] 50 none =
        (.BREAKOUT, "Giá đóng cửa tiệm cận/vượt đỉnh 20 phiên, thân nến rõ") := by
  refine ⟨⟨?_, ?_⟩, ⟨?_, ?_, ?_⟩, detectMarketState_breakout_first _ 50 none ?_ ?_⟩
  all_goals
    norm_num [lastCandle, maxHigh, minLow, bodyPct, rangePct, atrPct, slopePct, atNeg,
      listMax, listMin, truthyQ, ema, emaFrom]

/-! ## C3: scorePriceAction equals the reference point system and is clamped -/

/-- C3: for every input `(close, ema50, rsi14, atr14, h4Trend)`,
`scorePriceAction` equals the reference point system `scoreSpec`
(baseline 5; `+2` if `close > ema50` else `-2`, equality counting as
not-above; `+1.5` if `rsi14 ≥ 60`, `-1.5` if `rsi14 ≤ 40`, else 0;
`volPct = atr14/close*100` with 0 for falsy `atr14`, `-1` if
`volPct ≥ 6`, `+0.5` if `volPct ≤ 3`, else 0; `+1` for `"up"`, `-1` for
`"down"`), and the result is clamped to `[0, 10]` for all inputs,
including extremes such as `rsi14 = 0` or huge `atr14`. -/
theorem scorePriceAction_eq_spec (close ema50 : ℚ) (rsi14 : JsVal) (atr14 : Option ℚ)
    (h4Trend : String) :
    scorePriceAction close ema50 rsi14 atr14 h4Trend = scoreSpec close ema50 rsi14 atr14 h4Trend
    ∧ 0 ≤ scorePriceAction close ema50 rsi14 atr14 h4Trend
    ∧ scorePriceAction close ema50 rsi14 atr14 h4Trend ≤ 10 := by
  refine ⟨?_, clamp_nonneg _, clamp_le_ten _⟩
  have hud : ("up" : String) ≠ "down" := by decide
  simp only [scorePriceAction, scoreSpec, scoreRaw]
  congr 1
  by_cases hu : h4Trend = "up"
  · subst hu
    simp only [if_pos rfl, if_neg hud]
    split_ifs <;> ring
  · by_cases hd : h4Trend = "down"
    · subst hd
      simp only [if_pos rfl, if_neg (Ne.symm hud)]
      split_ifs <;> ring
    · simp only [if_neg hu, if_neg hd]
      split_ifs <;> ring

/-- Witness for C3 at a concrete extreme input (`rsi14 = 0`, huge
`atr14`). -/
theorem scorePriceAction_eq_spec_witness :
    scorePriceAction 100 50 (.num 0) (some 1000000) "down"
        = scoreSpec 100 50 (.num 0) (some 1000000) "down"
    ∧ 0 ≤ scorePriceAction 100 50 (.num 0) (some 1000000) "down"
    ∧ scorePriceAction 100 50 (.num 0) (some 1000000) "down" ≤ 10 :=
  scorePriceAction_eq_spec 100 50 (.num 0) (some 1000000) "down"

/-! ## C9: the raw score already lies in [-0.5, 10] -/

/-- C9: for every input to `scorePriceAction`, the raw score before
clamping already lies in `[-0.5, 10]` — the maximum attainable sum
`5+2+1.5+0.5+1` is exactly 10, so the upper clamp bound is never
strictly exceeded and clamping only ever raises the result
(`scorePriceAction = max 0 raw`); the raw sum is never 0, so an output
of 0 occurs only through clamping; and the output value 10 is attained,
e.g. at `(close, ema50, rsi14, atr14, h4Trend) =
(100, 1, 70, 1, "up")`. -/
theorem scoreRaw_bounds (close ema50 : ℚ) (rsi14 : JsVal) (atr14 : Option ℚ)
    (h4Trend : String) :
    (-(1/2) ≤ scoreRaw close ema50 rsi14 atr14 h4Trend
      ∧ scoreRaw close ema50 rsi14 atr14 h4Trend ≤ 10
      ∧ scoreRaw close ema50 rsi14 atr14 h4Trend ≠ 0
      ∧ scorePriceAction close ema50 rsi14 atr14 h4Trend
          = max 0 (scoreRaw close ema50 rsi14 atr14 h4Trend))
    ∧ scorePriceAction 100 1 (.num 70) (some 1) "up" = 10 := by
  have hb : -(1/2) ≤ scoreRaw close ema50 rsi14 atr14 h4Trend
      ∧ scoreRaw close ema50 rsi14 atr14 h4Trend ≤ 10
      ∧ scoreRaw close ema50 rsi14 atr14 h4Trend ≠ 0 := by
    simp only [scoreRaw]
    split_ifs <;> norm_num
  refine ⟨⟨hb.1, hb.2.1, hb.2.2, ?_⟩, ?_⟩
  · unfold scorePriceAction clamp
    rw [min_eq_right hb.2.1]
  · have hud : ("up" : String) ≠ "down" := by decide
    norm_num [scorePriceAction, scoreRaw, clamp, truthyQ, jge, jle, if_neg hud]

/-! ## C10: falsy atr makes DISTRIBUTION unreachable and widens ACCUMULATION -/

theorem atrPct_falsy (d1 : List Candle) {atrD : Option ℚ}
    (hf : atrD = none ∨ atrD = some 0) : atrPct d1 atrD = 0 := by
  rcases hf with rfl | rfl <;> simp [atrPct, truthyQ]

/-- C10: whenever the `atr` argument of `detectMarketState` is falsy
(`null`, `0`, or `undefined`), `atrPct` is taken to be 0; consequently
the DISTRIBUTION branch (which requires `atrPct ≥ 4.0`) is unreachable,
and the low-volatility disjunct of ACCUMULATION (`atrPct ≤ 3.5`) is
automatically satisfied, so any series with `rangePct ≤ 6.0` over the
last 20 bars that misses BREAKOUT and BREAKDOWN is classified
ACCUMULATION regardless of its EMA20 slope. -/
theorem detectMarketState_falsy_atr (d1 : List Candle) (ema50D : ℚ) (atrD : Option ℚ)
    (hf : atrD = none ∨ atrD = some 0) :
    atrPct d1 atrD = 0
    ∧ (detectMarketState d1 ema50D atrD).1 ≠ .DISTRIBUTION
    ∧ (¬((lastCandle d1).close ≥ maxHigh d1 * 0.998 ∧ bodyPct d1 ≥ 0.6) →
        ¬((lastCandle d1).close ≤ minLow d1 * 1.002 ∧ bodyPct d1 ≥ 0.6) →
        rangePct d1 ≤ 6.0 →
        (detectMarketState d1 ema50D atrD).1 = .ACCUMULATION) := by
  have h0 : atrPct d1 atrD = 0 := atrPct_falsy d1 hf
  refine ⟨h0, ?_, ?_⟩
  · unfold detectMarketState
    split_ifs with h1 h2 h3 h4
    · simp
    · simp
    · simp
    · rw [h0] at h4
      norm_num at h4
    · simp
  · intro hb hd hr
    unfold detectMarketState
    rw [if_neg hb, if_neg hd, if_pos (Or.inr ⟨hr, by rw [h0]; norm_num⟩)]

/-- Witness for C10: a one-candle series (`open = close`, so
`bodyPct = 0` misses both breakout branches; `rangePct = 0 ≤ 6`) with
`atrD = none`, classified ACCUMULATION. -/
theorem detectMarketState_falsy_atr_witness :
    ((none : Option ℚ) = none ∨ (none : Option ℚ) = some 0)
    ∧ (detectMarketState [⟨0, 100, 100, 100, 100, 5⟩] 50 none).1 = .ACCUMULATION :=
  ⟨Or.inl rfl,
    (detectMarketState_falsy_atr [⟨0, 100, 100, 100, 100, 5⟩] 50 none (Or.inl rfl)).2.2
      (by norm_num [lastCandle, maxHigh, bodyPct, atNeg, listMax])
      (by norm_num [lastCandle, minLow, bodyPct, atNeg, listMin])
      (by norm_num [rangePct, lastCandle, maxHigh, minLow, atNeg, listMax, listMin])⟩

/-! ## C8: the pipeline is deterministic in the candle inputs -/

/-- C8: for every fixed pair of candle series `(d1, h4)` (nonempty, as
JavaScript would fail with a `TypeError` on an empty series), two runs
of the full analysis pipeline — indicators, score, market state, report
assembly — with different wall-clock dates produce identical report
fields (trend, momentum label, score, market state, resistance and
support bands, ATR estimate), the as-of date field being the only
impure input: the composed pipeline is a pure function of its candle
inputs. -/
theorem buildDailyTA_deterministic (symbol date1 date2 : String) (d1 h4 : List Candle)
    (hd1 : d1 ≠ []) (hh4 : h4 ≠ []) :
    (buildDailyTA symbol date1 d1 h4).asOf = date1
    ∧ (buildDailyTA symbol date2 d1 h4).asOf = date2
    ∧ (buildDailyTA symbol date1 d1 h4).trendD = (buildDailyTA symbol date2 d1 h4).trendD
    ∧ (buildDailyTA symbol date1 d1 h4).momentum = (buildDailyTA symbol date2 d1 h4).momentum
    ∧ (buildDailyTA symbol date1 d1 h4).paScore = (buildDailyTA symbol date2 d1 h4).paScore
    ∧ (buildDailyTA symbol date1 d1 h4).state = (buildDailyTA symbol date2 d1 h4).state
    ∧ (buildDailyTA symbol date1 d1 h4).resist = (buildDailyTA symbol date2 d1 h4).resist
    ∧ (buildDailyTA symbol date1 d1 h4).support = (buildDailyTA symbol date2 d1 h4).support
    ∧ (buildDailyTA symbol date1 d1 h4).atrD = (buildDailyTA symbol date2 d1 h4).atrD :=
  ⟨rfl, rfl, rfl, rfl, rfl, rfl, rfl, rfl, rfl⟩

/-- Witness for C8 at concrete one-candle series and two distinct
dates. -/
theorem buildDailyTA_deterministic_witness :
    ([⟨0, 99, 100, 99, 100, 5⟩] : List Candle) ≠ []
    ∧ ([⟨0, 50, 51, 50, 51, 5⟩] : List Candle) ≠ []
    ∧ (buildDailyTA "BTCUSDT" "01/01/2025" [⟨0, 99, 100, 99, 100, 5⟩] [⟨0, 50, 51, 50, 51, 5⟩]).paScore
        = (buildDailyTA "BTCUSDT" "02/01/2025" [⟨0, 99, 100, 99, 100, 5⟩] [⟨0, 50, 51, 50, 51, 5⟩]).paScore :=
  ⟨List.cons_ne_nil _ _, List.cons_ne_nil _ _,
    (buildDailyTA_deterministic "BTCUSDT" "01/01/2025" "02/01/2025"
      [⟨0, 99, 100, 99, 100, 5⟩] [⟨0, 50, 51, 50, 51, 5⟩]
      (List.cons_ne_nil _ _) (List.cons_ne_nil _ _)).2.2.2.2.1⟩

/-! ## C6: ATR is nonnegative on valid candle series -/

theorem trueRange_nonneg (candles : List Candle)
    (hvalid : ∀ c ∈ candles, c.low ≤ c.high) :
    ∀ t ∈ trueRange candles, 0 ≤ t := by
  intro t ht
  simp only [trueRange, List.mem_map] at ht
  obtain ⟨i, hi, rfl⟩ := ht
  rw [List.mem_range'_1] at hi
  have hilen : i < candles.length := by omega
  have hmem : candles.getD i default ∈ candles := by
    rw [List.getD_eq_getElem _ _ hilen]
    exact List.getElem_mem hilen
  have hlh := hvalid _ hmem
  have h1 : (0 : ℚ) ≤ (candles.getD i default).high - (candles.getD i default).low := by
    linarith
  exact le_trans h1 (le_max_left _ _)

theorem atrSeed_nonneg (candles : List Candle) (period : ℕ)
    (hvalid : ∀ c ∈ candles, c.low ≤ c.high) : 0 ≤ atrSeed candles period := by
  unfold atrSeed
  apply div_nonneg _ (by positivity)
  apply List.sum_nonneg
  intro t ht
  exact trueRange_nonneg candles hvalid t (List.mem_of_mem_take ht)

theorem atrFold_nonneg (tr : List ℚ) (htr : ∀ t ∈ tr, 0 ≤ t) (is : List ℕ) :
    ∀ st : ℚ × List (Option ℚ), 0 ≤ st.1 →
    (∀ o ∈ st.2, ∀ q : ℚ, o = some q → 0 ≤ q) →
    0 ≤ (is.foldl (atrStep tr 14) st).1
    ∧ ∀ o ∈ (is.foldl (atrStep tr 14) st).2, ∀ q : ℚ, o = some q → 0 ≤ q := by
  induction is with
  | nil => exact fun st h1 h2 => ⟨h1, h2⟩
  | cons i is ih =>
    intro st h1 h2
    have hgd : 0 ≤ tr.getD (i - 1) 0 := by
      rcases Nat.lt_or_ge (i - 1) tr.length with h | h
      · rw [List.getD_eq_getElem _ _ h]
        exact htr _ (List.getElem_mem h)
      · rw [List.getD_eq_default _ _ h]
    have hnxt : (0 : ℚ) ≤ (st.1 * ((14 : ℕ) - 1 : ℚ) + tr.getD (i - 1) 0) / ((14 : ℕ) : ℚ) := by
      apply div_nonneg _ (by norm_num)
      have : (0 : ℚ) ≤ st.1 * ((14 : ℕ) - 1 : ℚ) := mul_nonneg h1 (by norm_num)
      linarith
    simp only [List.foldl_cons]
    apply ih
    · exact hnxt
    · intro o ho q hq
      simp only [atrStep] at ho
      rcases mem_setExtend ho with h | h | h
      · exact h2 o h q hq
      · rw [h] at hq
        injection hq with hq
        rw [← hq]
        exact hnxt
      · rw [h] at hq
        cases hq

/-- C6: for every valid candle series (length ≥ 15, each candle with
`high ≥ low`), every defined (non-`null`) ATR14 output is nonnegative:
each true-range value `max(high-low, |high-prevClose|, |low-prevClose|)`
is nonnegative, the simple average seeding ATR at index 14 is
nonnegative, and the Wilder smoothing `(atr*13 + tr)/14` preserves
nonnegativity at every subsequent index. -/
theorem atr_nonneg (candles : List Candle) (hlen : 15 ≤ candles.length)
    (hvalid : ∀ c ∈ candles, c.low ≤ c.high) :
    ∀ o ∈ atr candles 14, ∀ q : ℚ, o = some q → 0 ≤ q := by
  intro o ho q hq
  have hseed := atrSeed_nonneg candles 14 hvalid
  have hbase : ∀ o ∈ setExtend (List.replicate candles.length (none : Option ℚ)) 14
      (some (atrSeed candles 14)), ∀ q : ℚ, o = some q → 0 ≤ q := by
    intro o ho q hq
    rcases mem_setExtend ho with h | h | h
    · rw [List.eq_of_mem_replicate h] at hq
      cases hq
    · rw [h] at hq
      injection hq with hq
      rw [← hq]
      exact hseed
    · rw [h] at hq
      cases hq
  unfold atr at ho
  exact (atrFold_nonneg (trueRange candles) (trueRange_nonneg candles hvalid) _ _
    hseed hbase).2 o ho q hq

/-- Witness for C6 at a concrete valid 15-candle series. -/
theorem atr_nonneg_witness :
    15 ≤ (List.replicate 15 (⟨0, 10, 12, 9, 11, 1⟩ : Candle)).length
    ∧ (∀ c ∈ List.replicate 15 (⟨0, 10, 12, 9, 11, 1⟩ : Candle), c.low ≤ c.high)
    ∧ ∀ o ∈ atr (List.replicate 15 (⟨0, 10, 12, 9, 11, 1⟩ : Candle)) 14,
        ∀ q : ℚ, o = some q → 0 ≤ q :=
  ⟨by decide, by decide,
    atr_nonneg (List.replicate 15 ⟨0, 10, 12, 9, 11, 1⟩) (by decide) (by decide)⟩

/-! ## C4: RSI stays in [0, 100]; monotone series pin it at 100 -/

theorem rsiInitFold_nonneg (values : List ℚ) (is : List ℕ)
    (his : ∀ i ∈ is, i < values.length) :
    ∀ g l : ℚ, 0 ≤ g → 0 ≤ l →
    ∃ g' l' : ℚ, is.foldl (rsiInitStep values) (.num g, .num l) = (.num g', .num l')
      ∧ 0 ≤ g' ∧ 0 ≤ l' := by
  induction is with
  | nil => exact fun g l hg hl => ⟨g, l, rfl, hg, hl⟩
  | cons i is ih =>
    intro g l hg hl
    have hi : i < values.length := his i (List.mem_cons_self i is)
    have hi1 : i - 1 < values.length := lt_of_le_of_lt (Nat.sub_le i 1) hi
    have his' : ∀ j ∈ is, j < values.length := fun j hj => his j (List.mem_cons_of_mem i hj)
    simp only [List.foldl_cons, rsiInitStep, jget_eq_num values i hi,
      jget_eq_num values (i - 1) hi1, jsub]
    by_cases h0 : (0 : ℚ) ≤ values.get ⟨i, hi⟩ - values.get ⟨i - 1, hi1⟩
    · rw [if_pos (by simp only [jge, decide_eq_true_eq]; exact h0)]
      simp only [jadd]
      exact ih his' _ l (by linarith) hl
    · rw [if_neg (by simp only [jge, decide_eq_true_eq]; exact h0)]
      exact ih his' g _ hg (by linarith)

theorem rsiVal_bounds {g l : ℚ} (hg : 0 ≤ g) (hl : 0 ≤ l) :
    ∃ q : ℚ, rsiVal (.num g) (.num l) = .num q ∧ 0 ≤ q ∧ q ≤ 100 := by
  unfold rsiVal
  by_cases h0 : l = 0
  · exact ⟨100, by rw [if_pos (by simp only [jeqz, decide_eq_true_eq]; exact h0)], by norm_num, by norm_num⟩
  · have hlpos : 0 < l := lt_of_le_of_ne hl (Ne.symm h0)
    have hratio : 0 ≤ g / l := div_nonneg hg hl
    have hden : (0 : ℚ) < 1 + g / l := by linarith
    refine ⟨100 - 100 / (1 + g / l), ?_, ?_, ?_⟩
    · rw [if_neg (by simp only [jeqz, decide_eq_true_eq]; exact h0)]
      simp only [jdiv, if_neg h0, jadd, if_neg (ne_of_gt hden), jsub]
    · have hle : 100 / (1 + g / l) ≤ 100 := div_le_self (by norm_num) (by linarith)
      linarith
    · have hpos : 0 < 100 / (1 + g / l) := div_pos (by norm_num) hden
      linarith

theorem rsiLoopStep_inv (values : List ℚ) {i : ℕ} (hi : i < values.length)
    {st : RsiState} {g l : ℚ} (hag : st.avgGain = .num g) (hal : st.avgLoss = .num l)
    (hg : 0 ≤ g) (hl : 0 ≤ l)
    (hout : ∀ o ∈ st.out, ∀ v, o = some v → ∃ q : ℚ, v = .num q ∧ 0 ≤ q ∧ q ≤ 100) :
    ∃ g' l' : ℚ, (rsiLoopStep values 14 st i).avgGain = .num g'
      ∧ (rsiLoopStep values 14 st i).avgLoss = .num l'
      ∧ 0 ≤ g' ∧ 0 ≤ l'
      ∧ ∀ o ∈ (rsiLoopStep values 14 st i).out, ∀ v, o = some v →
          ∃ q : ℚ, v = .num q ∧ 0 ≤ q ∧ q ≤ 100 := by
  have hi1 : i - 1 < values.length := lt_of_le_of_lt (Nat.sub_le i 1) hi
  set d := values.get ⟨i, hi⟩ - values.get ⟨i - 1, hi1⟩ with hd
  have hgain : ∃ gq : ℚ, (if jgt (.num d) (.num 0) then JsVal.num d else .num 0) = .num gq
      ∧ 0 ≤ gq := by
    by_cases hp : (0 : ℚ) < d
    · exact ⟨d, by rw [if_pos (by simp only [jgt, decide_eq_true_eq]; exact hp)], le_of_lt hp⟩
    · exact ⟨0, by rw [if_neg (by simp only [jgt, decide_eq_true_eq]; exact hp)], le_refl 0⟩
  have hloss : ∃ lq : ℚ, (if jlt (.num d) (.num 0) then jneg (.num d) else .num 0) = .num lq
      ∧ 0 ≤ lq := by
    by_cases hn : d < 0
    · exact ⟨-d, by rw [if_pos (by simp only [jlt, decide_eq_true_eq]; exact hn)]; rfl, by linarith⟩
    · exact ⟨0, by rw [if_neg (by simp only [jlt, decide_eq_true_eq]; exact hn)], le_refl 0⟩
  obtain ⟨gq, hgq, hgq0⟩ := hgain
  obtain ⟨lq, hlq, hlq0⟩ := hloss
  have h14 : ((14 : ℕ) : ℚ) ≠ 0 := by norm_num
  have hag' : (rsiLoopStep values 14 st i).avgGain = .num ((g * ((14 : ℕ) - 1 : ℚ) + gq) / ((14 : ℕ) : ℚ)) := by
    simp only [rsiLoopStep, jget_eq_num values i hi, jget_eq_num values (i - 1) hi1, jsub,
      ← hd, hgq, hag, jmul, jadd, jdiv, if_neg h14]
  have hal' : (rsiLoopStep values 14 st i).avgLoss = .num ((l * ((14 : ℕ) - 1 : ℚ) + lq) / ((14 : ℕ) : ℚ)) := by
    simp only [rsiLoopStep, jget_eq_num values i hi, jget_eq_num values (i - 1) hi1, jsub,
      ← hd, hlq, hal, jmul, jadd, jdiv, if_neg h14]
  have hg' : 0 ≤ (g * ((14 : ℕ) - 1 : ℚ) + gq) / ((14 : ℕ) : ℚ) := by
    apply div_nonneg _ (by norm_num)
    have : (0 : ℚ) ≤ g * ((14 : ℕ) - 1 : ℚ) := mul_nonneg hg (by norm_num)
    linarith
  have hl' : 0 ≤ (l * ((14 : ℕ) - 1 : ℚ) + lq) / ((14 : ℕ) : ℚ) := by
    apply div_nonneg _ (by norm_num)
    have : (0 : ℚ) ≤ l * ((14 : ℕ) - 1 : ℚ) := mul_nonneg hl (by norm_num)
    linarith
  refine ⟨_, _, hag', hal', hg', hl', ?_⟩
  intro o ho v hv
  have hout' : (rsiLoopStep values 14 st i).out
      = setExtend st.out i (some (rsiVal (rsiLoopStep values 14 st i).avgGain
          (rsiLoopStep values 14 st i).avgLoss)) := by
    simp only [rsiLoopStep]
  rw [hout'] at ho
  rcases mem_setExtend ho with h | h | h
  · exact hout o h v hv
  · rw [h] at hv
    injection hv with hv
    rw [← hv, hag', hal']
    exact rsiVal_bounds hg' hl'
  · rw [h] at hv
    cases hv

theorem rsiLoopFold_inv (values : List ℚ) (is : List ℕ)
    (his : ∀ i ∈ is, i < values.length) :
    ∀ st : RsiState, ∀ g l : ℚ, st.avgGain = .num g → st.avgLoss = .num l →
    0 ≤ g → 0 ≤ l →
    (∀ o ∈ st.out, ∀ v, o = some v → ∃ q : ℚ, v = .num q ∧ 0 ≤ q ∧ q ≤ 100) →
    ∀ o ∈ (is.foldl (rsiLoopStep values 14) st).out, ∀ v, o = some v →
      ∃ q : ℚ, v = .num q ∧ 0 ≤ q ∧ q ≤ 100 := by
  induction is with
  | nil => exact fun st g l hag hal hg hl hout => hout
  | cons i is ih =>
    intro st g l hag hal hg hl hout
    have hi : i < values.length := his i (List.mem_cons_self i is)
    obtain ⟨g', l', hag', hal', hg', hl', hout'⟩ :=
      rsiLoopStep_inv values hi hag hal hg hl hout
    simp only [List.foldl_cons]
    exact ih (fun j hj => his j (List.mem_cons_of_mem i hj)) _ g' l' hag' hal' hg' hl' hout'

theorem chain_get_lt (values : List ℚ) (hc : values.Chain' (· < ·)) {i : ℕ}
    (h1 : 1 ≤ i) (hi : i < values.length) :
    values.get ⟨i - 1, lt_of_le_of_lt (Nat.sub_le i 1) hi⟩ < values.get ⟨i, hi⟩ := by
  have h := List.chain'_iff_get.1 hc (i - 1) (by omega)
  have he : i - 1 + 1 = i := by omega
  simp only [he] at h
  exact h

theorem rsiInitFold_chain (values : List ℚ) (hc : values.Chain' (· < ·)) (is : List ℕ)
    (his : ∀ i ∈ is, 1 ≤ i ∧ i < values.length) :
    ∀ gl : JsVal × JsVal, gl.2 = .num 0 → (is.foldl (rsiInitStep values) gl).2 = .num 0 := by
  induction is with
  | nil => exact fun gl h => h
  | cons i is ih =>
    intro gl h
    obtain ⟨h1, hi⟩ := his i (List.mem_cons_self i is)
    have hi1 : i - 1 < values.length := lt_of_le_of_lt (Nat.sub_le i 1) hi
    have hlt : values.get ⟨i - 1, hi1⟩ < values.get ⟨i, hi⟩ := chain_get_lt values hc h1 hi
    simp only [List.foldl_cons]
    apply ih (fun j hj => his j (List.mem_cons_of_mem i hj))
    simp only [rsiInitStep, jget_eq_num values i hi, jget_eq_num values (i - 1) hi1, jsub]
    rw [if_pos (by simp only [jge, decide_eq_true_eq]; linarith)]
    exact h

theorem rsiLoopFold_chain (values : List ℚ) (hc : values.Chain' (· < ·)) (is : List ℕ)
    (his : ∀ i ∈ is, 1 ≤ i ∧ i < values.length) :
    ∀ st : RsiState, st.avgLoss = .num 0 →
    (∀ o ∈ st.out, o = none ∨ o = some (.num 100)) →
    (is.foldl (rsiLoopStep values 14) st).avgLoss = .num 0
    ∧ ∀ o ∈ (is.foldl (rsiLoopStep values 14) st).out, o = none ∨ o = some (.num 100) := by
  induction is with
  | nil => exact fun st h1 h2 => ⟨h1, h2⟩
  | cons i is ih =>
    intro st hal hout
    obtain ⟨h1, hi⟩ := his i (List.mem_cons_self i is)
    have hi1 : i - 1 < values.length := lt_of_le_of_lt (Nat.sub_le i 1) hi
    have hlt : values.get ⟨i - 1, hi1⟩ < values.get ⟨i, hi⟩ := chain_get_lt values hc h1 hi
    have hal' : (rsiLoopStep values 14 st i).avgLoss = .num 0 := by
      simp only [rsiLoopStep, jget_eq_num values i hi, jget_eq_num values (i - 1) hi1,
        jsub, hal]
      rw [if_neg (by simp only [jlt, decide_eq_true_eq]; linarith)]
      simp only [jmul, jadd, jdiv]
      rw [if_neg (by norm_num : ¬(((14 : ℕ) : ℚ) = 0))]
      norm_num
    have hout' : ∀ o ∈ (rsiLoopStep values 14 st i).out, o = none ∨ o = some (.num 100) := by
      intro o ho
      have hrw : (rsiLoopStep values 14 st i).out
          = setExtend st.out i (some (rsiVal (rsiLoopStep values 14 st i).avgGain
              (rsiLoopStep values 14 st i).avgLoss)) := rfl
      rw [hrw] at ho
      rcases mem_setExtend ho with h | h | h
      · exact hout o h
      · right
        rw [h, hal']
        simp only [rsiVal]
        rw [if_pos (by simp [jeqz])]
      · exact Or.inl h
    simp only [List.foldl_cons]
    exact ih (fun j hj => his j (List.mem_cons_of_mem i hj)) _ hal' hout'

/-- C4: for every value series of length ≥ 15, every defined
(non-`null`) RSI14 output is a finite number in `[0, 100]` — no defined
index produces `NaN`, `Infinity`, or an exception from division by zero
— and for every monotonically increasing price series the smoothed
average loss is exactly zero (so the guarded `avgLoss === 0` branch
yields exactly 100 at every defined index, and the RSI never exceeds
100 nor drops below 0). -/
theorem rsi_bounds (values : List ℚ) (hlen : 15 ≤ values.length) :
    (∀ o ∈ rsi values 14, ∀ v, o = some v → ∃ q : ℚ, v = .num q ∧ 0 ≤ q ∧ q ≤ 100)
    ∧ (values.Chain' (· < ·) →
        (rsiRun values 14).avgLoss = .num 0
        ∧ ∀ o ∈ rsi values 14, o = none ∨ o = some (.num 100)) := by
  have h14 : ¬(((14 : ℕ) : ℚ) = 0) := by norm_num
  constructor
  · obtain ⟨g', l', hgl, hg', hl'⟩ := rsiInitFold_nonneg values (List.range' 1 14)
      (fun i hi => by rw [List.mem_range'_1] at hi; omega) 0 0 le_rfl le_rfl
    have h1 : rsiInitGL values 14 = (.num g', .num l') := hgl
    have hag : (rsiSeedState values 14).avgGain = .num (g' / ((14 : ℕ) : ℚ)) := by
      simp only [rsiSeedState, h1, jdiv, if_neg h14]
    have hal : (rsiSeedState values 14).avgLoss = .num (l' / ((14 : ℕ) : ℚ)) := by
      simp only [rsiSeedState, h1, jdiv, if_neg h14]
    have hga : 0 ≤ g' / ((14 : ℕ) : ℚ) := div_nonneg hg' (by norm_num)
    have hla : 0 ≤ l' / ((14 : ℕ) : ℚ) := div_nonneg hl' (by norm_num)
    have hout : ∀ o ∈ (rsiSeedState values 14).out, ∀ v, o = some v →
        ∃ q : ℚ, v = .num q ∧ 0 ≤ q ∧ q ≤ 100 := by
      intro o ho v hv
      have hrw : (rsiSeedState values 14).out
          = setExtend (List.replicate values.length (none : Option JsVal)) 14
              (some (rsiVal ((rsiSeedState values 14).avgGain)
                ((rsiSeedState values 14).avgLoss))) := rfl
      rw [hrw] at ho
      rcases mem_setExtend ho with h | h | h
      · rw [List.eq_of_mem_replicate h] at hv
        cases hv
      · rw [h] at hv
        injection hv with hv
        rw [← hv, hag, hal]
        exact rsiVal_bounds hga hla
      · rw [h] at hv
        cases hv
    exact rsiLoopFold_inv values (List.range' 15 (values.length - 15))
      (fun i hi => by rw [List.mem_range'_1] at hi; omega)
      (rsiSeedState values 14) _ _ hag hal hga hla hout
  · intro hc
    have hinit : (rsiInitGL values 14).2 = .num 0 :=
      rsiInitFold_chain values hc (List.range' 1 14)
        (fun i hi => by rw [List.mem_range'_1] at hi; omega) (.num 0, .num 0) rfl
    have hal : (rsiSeedState values 14).avgLoss = .num 0 := by
      have hrw : (rsiSeedState values 14).avgLoss
          = jdiv (rsiInitGL values 14).2 (.num ((14 : ℕ) : ℚ)) := rfl
      rw [hrw, hinit]
      simp only [jdiv, if_neg h14]
      norm_num
    have hout : ∀ o ∈ (rsiSeedState values 14).out, o = none ∨ o = some (.num 100) := by
      intro o ho
      have hrw : (rsiSeedState values 14).out
          = setExtend (List.replicate values.length (none : Option JsVal)) 14
              (some (rsiVal ((rsiSeedState values 14).avgGain)
                ((rsiSeedState values 14).avgLoss))) := rfl
      rw [hrw] at ho
      rcases mem_setExtend ho with h | h | h
      · exact Or.inl (List.eq_of_mem_replicate h)
      · right
        rw [h, hal]
        simp only [rsiVal]
        rw [if_pos (by simp [jeqz])]
      · exact Or.inl h
    exact rsiLoopFold_chain values hc (List.range' 15 (values.length - 15))
      (fun i hi => by rw [List.mem_range'_1] at hi; omega)
      (rsiSeedState values 14) hal hout

/-- Witness for C4 at the concrete strictly increasing 15-element
series `[1, ..., 15]`. -/
theorem rsi_bounds_witness :
    15 ≤ ([1, 2, 3, 4, 5, 6, 7, 8, 9, 10, 11, 12, 13, 14, 15] : List ℚ).length
    ∧ ((∀ o ∈ rsi [1, 2, 3, 4, 5, 6, 7, 8, 9, 10, 11, 12, 13, 14, 15] 14,
          ∀ v, o = some v → ∃ q : ℚ, v = .num q ∧ 0 ≤ q ∧ q ≤ 100)
      ∧ (([1, 2, 3, 4, 5, 6, 7, 8, 9, 10, 11, 12, 13, 14, 15] : List ℚ).Chain' (· < ·) →
          (rsiRun [1, 2, 3, 4, 5, 6, 7, 8, 9, 10, 11, 12, 13, 14, 15] 14).avgLoss = .num 0
          ∧ ∀ o ∈ rsi [1, 2, 3, 4, 5, 6, 7, 8, 9, 10, 11, 12, 13, 14, 15] 14,
              o = none ∨ o = some (.num 100))) :=
  ⟨by decide, rsi_bounds [1, 2, 3, 4, 5, 6, 7, 8, 9, 10, 11, 12, 13, 14, 15] (by decide)⟩

/-! ## C2: no InsufficientDataError exists; short series yield degraded output -/

theorem nan_jsub (x : JsVal) : jsub .nan x = .nan := by cases x <;> rfl

/-- C2 counterexample: the source defines no `InsufficientDataError`
and `rsi` performs no length validation.  On the one-element series
`[100]` (far below the required 15 bars for RSI14) the computation does
not fail: it returns the degraded array of 14 `null` entries followed
by `NaN` — exactly the partial output the claim says is never
returned. -/
theorem rsi_no_insufficient_data_error :
    ([100] : List ℚ).length < 15
    ∧ rsi [100] 14 = List.replicate 14 none ++ [some JsVal.nan] := by
  refine ⟨by decide, ?_⟩
  have hr : List.range' 1 14 = [1, 2, 3, 4, 5, 6, 7, 8, 9, 10, 11, 12, 13, 14] := by decide
  have hr2 : List.range' 15 (([100] : List ℚ).length - 15) = [] := by decide
  simp only [rsi, rsiRun, rsiSeedState, rsiInitGL, hr, hr2, List.foldl_cons, List.foldl_nil,
    rsiInitStep, jget, setExtend, List.length_singleton]
  norm_num [JsVal.jsub, JsVal.jge, JsVal.jadd, JsVal.jdiv, JsVal.jeqz, rsiVal]
  decide

/-- C2 as amended: for every series shorter than the 15 bars RSI14
needs, `rsi` raises no error and returns the degraded array of 14
`null` entries followed by `NaN`: the out-of-range reads of the seeding
loop poison `losses` with `NaN`, the guarded branch is skipped
(`NaN === 0` is false), and the assignment `out[14] = NaN` extends the
output array past the short input. -/
theorem rsi_short_input_degraded (values : List ℚ) (h : values.length ≤ 14) :
    rsi values 14 = List.replicate 14 none ++ [some JsVal.nan] := by
  have hsplit : List.range' 1 14 = List.range' 1 13 ++ [14] := by decide
  have hlast : ∀ gl : JsVal × JsVal, (rsiInitStep values gl 14).2 = .nan := by
    intro gl
    have h14 : jget values 14 = .nan := jget_eq_nan values 14 (by omega)
    simp only [rsiInitStep, h14, nan_jsub]
    rw [if_neg (by simp [jge])]
    exact jsub_nan gl.2
  have hinit : (rsiInitGL values 14).2 = .nan := by
    show ((List.range' 1 14).foldl (rsiInitStep values) (.num 0, .num 0)).2 = .nan
    rw [hsplit, List.foldl_append]
    simp only [List.foldl_cons, List.foldl_nil]
    exact hlast _
  have hal : (rsiSeedState values 14).avgLoss = .nan := by
    have hrw : (rsiSeedState values 14).avgLoss
        = jdiv (rsiInitGL values 14).2 (.num ((14 : ℕ) : ℚ)) := rfl
    rw [hrw, hinit]
    rfl
  have hval : rsiVal ((rsiSeedState values 14).avgGain) .nan = .nan := by
    unfold rsiVal
    rw [if_neg (by simp [jeqz])]
    rw [jdiv_nan, jadd_nan, jdiv_nan, jsub_nan]
  have hout : (rsiSeedState values 14).out = List.replicate 14 none ++ [some JsVal.nan] := by
    have hrw : (rsiSeedState values 14).out
        = setExtend (List.replicate values.length (none : Option JsVal)) 14
            (some (rsiVal ((rsiSeedState values 14).avgGain)
              ((rsiSeedState values 14).avgLoss))) := rfl
    rw [hrw, hal, hval]
    unfold setExtend
    rw [if_neg (by simp only [List.length_replicate]; omega)]
    rw [List.length_replicate, ← List.replicate_add]
    have hadd : values.length + (14 - values.length) = 14 := by omega
    rw [hadd]
  have hloop : values.length - (14 + 1) = 0 := by omega
  show ((List.range' (14 + 1) (values.length - (14 + 1))).foldl
    (rsiLoopStep values 14) (rsiSeedState values 14)).out = _
  rw [hloop]
  simp only [List.range', List.foldl_nil]
  exact hout

/-- Witness for the amended C2 at the concrete two-element series
`[1, 2]`. -/
theorem rsi_short_input_degraded_witness :
    ([1, 2] : List ℚ).length ≤ 14
    ∧ rsi [1, 2] 14 = List.replicate 14 none ++ [some JsVal.nan] :=
  ⟨by decide, rsi_short_input_degraded [1, 2] (by decide)⟩
